import Mathlib

/-!
Verification of the Upload & Mock-Analysis Session of
`src/src/App.tsx` (a single React component).

The component's pure logic and its state transitions are embedded
shallowly:

* `formatFileSize` mirrors the source function of the same name.  The
  JavaScript expression `Math.floor(Math.log(bytes) / Math.log(1024))`
  is modelled by `unitIndex`, the exact floor of the base-1024
  logarithm (real-valued logarithms are modelled exactly, not with
  IEEE doubles); `(x).toFixed(2)` followed by `parseFloat` is modelled
  by exact half-up rounding to centi-units (`round2`) and a rendering
  that strips trailing zeros (`renderCenti`); the out-of-range index
  `sizes[i]` for `i ≥ 4` yields the string `"undefined"`, as
  JavaScript string concatenation does with an undefined element.
* The React `useState` cells become fields of `AppState`; each event
  handler becomes a pure function `AppState → AppState`.  Every call
  to `Math.random()` becomes an explicit rational argument (assumed in
  `[0,1)` where a claim needs it).  `URL.createObjectURL` is modelled
  by a fresh-handle counter `nextUrl`, and `URL.revokeObjectURL` by
  appending the handle to the event log `revoked`.
* The `async` body of `runAnalysis` is split at its single `await`
  into `startAnalysis` (the code before the suspension) and
  `finishAnalysis` (the continuation: `setResult` on success, the
  `catch` branch on failure, and the `finally` in both cases).
  In-flight runs are a list `pending`, so overlapping runs are
  representable; each run records the ghost flag `startedWithBoth`
  (were model and image present when it started) and its randomized
  delay, and `resultFromBoth` records that flag for the run that
  produced the current result.
-/

/-- The unit list `['Bytes', 'KB', 'MB', 'GB']` from `formatFileSize`. -/
def sizes : List String := ["Bytes", "KB", "MB", "GB"]

/-- Fuel-driven floor of the base-1024 logarithm: `unitIndexAux fuel b`
counts how many times `b` can be divided by 1024 before dropping below
1024, provided `fuel` bounds the recursion depth. -/
def unitIndexAux : Nat → Nat → Nat
  | 0, _ => 0
  | fuel + 1, b => if b < 1024 then 0 else unitIndexAux fuel (b / 1024) + 1

/-- `Math.floor(Math.log(bytes) / Math.log(1024))` with the real
logarithm taken exactly: the largest `i` with `1024 ^ i ≤ b` (for
`b ≥ 1`). -/
def unitIndex (b : Nat) : Nat := unitIndexAux b b

/-- `(100 * b / p)` rounded half-up to an integer: the exact value of
`(b / p).toFixed(2)` scaled by 100, for a positive divisor `p`. -/
def round2 (b p : Nat) : Nat := (200 * b + p) / (2 * p)

/-- Render `n` centi-units (`n / 100`) as JavaScript's
`parseFloat(x.toFixed(2))` prints it: at most two decimals, trailing
zeros stripped, no decimal point for whole numbers. -/
def renderCenti (n : Nat) : String :=
  let whole := n / 100
  let frac := n % 100
  if frac = 0 then toString whole
  else if frac % 10 = 0 then toString whole ++ "." ++ toString (frac / 10)
  else if frac < 10 then toString whole ++ ".0" ++ toString frac
  else toString whole ++ "." ++ toString frac

/-- The number part and unit part built by `formatFileSize` before the
final concatenation `parseFloat(...) + ' ' + sizes[i]`. -/
def formatParts (bytes : Nat) : String × String :=
  if bytes = 0 then ("0", "Bytes")
  else
    (renderCenti (round2 bytes (1024 ^ unitIndex bytes)),
     (sizes.getD (unitIndex bytes) "undefined"))

/-- `formatFileSize` from `src/src/App.tsx` lines 46–52. -/
def formatFileSize (bytes : Nat) : String :=
  (formatParts bytes).1 ++ " " ++ (formatParts bytes).2

/-- An incoming browser `File`: its name, byte size and declared
content type (`file.type`). -/
structure FileInput where
  name : String
  size : Nat
  mime : String
  deriving DecidableEq

/-- The `UploadedModel` record built by `handleModelUpload`. -/
structure UploadedModel where
  file : FileInput
  name : String
  size : String
  uploadedAt : Nat
  deriving DecidableEq

/-- The `UploadedImage` record built by `handleImageUpload`; `url` is
the object-URL handle, modelled as the allocation number handed out by
`URL.createObjectURL`. -/
structure UploadedImage where
  file : FileInput
  url : Nat
  name : String
  size : String
  deriving DecidableEq

/-- The `AnalysisResult` record built inside `runAnalysis`. -/
structure AnalysisResult where
  isOriginal : Bool
  confidence : Rat
  processingTime : Rat
  deriving DecidableEq

/-- One in-flight `runAnalysis` execution, suspended at its `await`.
`startedWithBoth` is a ghost flag: were model and image present when
the run started (always true, by the guard).  `delaySeconds` is the
randomized suspend duration `2000 + Math.random() * 3000` in seconds. -/
structure RunInfo where
  startedWithBoth : Bool
  delaySeconds : Rat
  deriving DecidableEq

/-- The component's `useState` cells, plus instrumentation: `pending`
(in-flight runs), `resultFromBoth` (ghost provenance of the current
result), `nextUrl` (fresh object-URL counter) and `revoked` (log of
handles passed to `URL.revokeObjectURL`). -/
structure AppState where
  model : Option UploadedModel
  image : Option UploadedImage
  isAnalyzing : Bool
  result : Option AnalysisResult
  error : Option String
  pending : List RunInfo
  resultFromBoth : Bool
  nextUrl : Nat
  revoked : List Nat
  deriving DecidableEq

/-- The initial render: every cell `null` / `false`. -/
def initState : AppState :=
  { model := none, image := none, isAnalyzing := false, result := none,
    error := none, pending := [], resultFromBoth := false, nextUrl := 0,
    revoked := [] }

/-- `file.name.toLowerCase().endsWith('.pt')`, the validation in
`handleModelUpload` (ASCII lowering, which is what the suffix needs). -/
def validModelName (n : String) : Bool :=
  List.isSuffixOf [ '.', 'p', 't' ] (n.data.map Char.toLower)

/-- `file.type.startsWith('image/')`, the validation in
`handleImageUpload`. -/
def validImageType (t : String) : Bool :=
  List.isPrefixOf [ 'i', 'm', 'a', 'g', 'e', '/' ] t.data

/-- `handleModelUpload` (lines 54–67): reject unless the lowered name
ends in `.pt`; otherwise replace the model and clear the error.  `now`
is `new Date()`. -/
def handleModelUpload (now : Nat) (f : FileInput) (s : AppState) : AppState :=
  if validModelName f.name then
    { s with
      model := some { file := f, name := f.name,
                      size := formatFileSize f.size, uploadedAt := now },
      error := none }
  else
    { s with error := some "Please upload a valid PyTorch model file (.pt)" }

/-- `handleImageUpload` (lines 69–84): reject unless the content type
starts with `image/`; otherwise allocate a fresh object URL, replace
the image, clear the error and clear the result.  The previous image's
object URL is not revoked here — the source has no `revokeObjectURL`
call on this path. -/
def handleImageUpload (f : FileInput) (s : AppState) : AppState :=
  if validImageType f.mime then
    { s with
      image := some { file := f, url := s.nextUrl, name := f.name,
                      size := formatFileSize f.size },
      nextUrl := s.nextUrl + 1,
      error := none,
      result := none }
  else
    { s with error := some "Please upload a valid image file" }

/-- The part of `runAnalysis` (lines 114–123) before the `await`:
return unchanged unless both model and image are present (the busy
flag is not consulted); otherwise set the busy flag, clear error and
result, and suspend — recorded as a new pending run.  `rd` is the
`Math.random()` draw of the delay. -/
def startAnalysis (rd : Rat) (s : AppState) : AppState :=
  if s.model.isNone || s.image.isNone then s
  else
    { s with
      isAnalyzing := true,
      error := none,
      result := none,
      pending :=
        { startedWithBoth := s.model.isSome && s.image.isSome,
          delaySeconds := 2 + rd * 3 } :: s.pending }

/-- The mock result built at lines 126–130 from three `Math.random()`
draws: `isOriginal := Math.random() > 0.5`,
`confidence := 0.75 + Math.random() * 0.24`,
`processingTime := 1.2 + Math.random() * 2.3`. -/
def mkResult (r1 r2 r3 : Rat) : AnalysisResult :=
  { isOriginal := decide ((1 : Rat) / 2 < r1),
    confidence := 3 / 4 + r2 * (24 / 100),
    processingTime := 12 / 10 + r3 * (23 / 10) }

/-- The continuation of `runAnalysis` after the `await` (lines
124–137), resuming the oldest pending run.  `ok` says whether the
awaited promise fulfilled: on fulfilment `setResult(mockResult)`, on
rejection the `catch` sets the failure message; the `finally` clears
the busy flag either way.  With no run in flight there is nothing to
resume. -/
def finishAnalysis (ok : Bool) (r1 r2 r3 : Rat) (s : AppState) : AppState :=
  match s.pending with
  | [] => s
  | run :: rest =>
    if ok then
      { s with
        result := some (mkResult r1 r2 r3),
        resultFromBoth := run.startedWithBoth,
        pending := rest,
        isAnalyzing := false }
    else
      { s with
        error := some "Analysis failed. Please try again.",
        pending := rest,
        isAnalyzing := false }

/-- `clearModel` (lines 140–146): drop the model and the result (the
file-input reset is purely a DOM concern). -/
def clearModel (s : AppState) : AppState :=
  { s with model := none, result := none }

/-- `clearImage` (lines 148–157): revoke the current image's object
URL if one is present, then drop the image and the result. -/
def clearImage (s : AppState) : AppState :=
  match s.image with
  | some img =>
    { s with revoked := s.revoked ++ [img.url], image := none, result := none }
  | none => { s with image := none, result := none }

/-- The dismiss button on the error banner: `setError(null)`. -/
def dismissError (s : AppState) : AppState :=
  { s with error := none }

/-- States reachable from the initial render by any interleaving of
the component's handlers (suspension points included). -/
inductive Reachable : AppState → Prop
  | init : Reachable initState
  | modelUp (now : Nat) (f : FileInput) {s : AppState} :
      Reachable s → Reachable (handleModelUpload now f s)
  | imageUp (f : FileInput) {s : AppState} :
      Reachable s → Reachable (handleImageUpload f s)
  | start (rd : Rat) {s : AppState} :
      Reachable s → Reachable (startAnalysis rd s)
  | finish (ok : Bool) (r1 r2 r3 : Rat) {s : AppState} :
      Reachable s → Reachable (finishAnalysis ok r1 r2 r3 s)
  | clearM {s : AppState} : Reachable s → Reachable (clearModel s)
  | clearI {s : AppState} : Reachable s → Reachable (clearImage s)
  | dismiss {s : AppState} : Reachable s → Reachable (dismissError s)

/-- A concrete `.pt` upload used in witnesses. -/
def fModel : FileInput := { name := "net.pt", size := 0, mime := "" }

/-- A concrete image upload used in witnesses. -/
def fImage : FileInput := { name := "pic.png", size := 0, mime := "image/png" }

/-- A second concrete image upload, used to exercise replacement. -/
def fImageB : FileInput := { name := "pic2.jpg", size := 0, mime := "image/jpeg" }

/-- Model and image uploaded, nothing running. -/
def sReady : AppState := handleImageUpload fImage (handleModelUpload 0 fModel initState)

/-- An analysis in flight from `sReady`. -/
def sBusy : AppState := startAnalysis 0 sReady

/-- The analysis completed successfully: a result is on display. -/
def sWithResult : AppState := finishAnalysis true 0 0 0 sBusy

/-- The session invariant maintained by every handler: result
provenance, the busy-flag window, ghost truth of pending runs, and
single release of object-URL handles. -/
structure GoodState (s : AppState) : Prop where
  resultProv : s.result.isSome = true → s.resultFromBoth = true
  busyWindow : s.isAnalyzing = true → s.pending ≠ []
  pendingProv : ∀ run ∈ s.pending, run.startedWithBoth = true
  revokedNodup : s.revoked.Nodup
  revokedLt : ∀ u ∈ s.revoked, u < s.nextUrl
  imageFresh : ∀ img, s.image = some img → img.url < s.nextUrl ∧ img.url ∉ s.revoked

lemma unitIndexAux_spec :
    ∀ fuel b : Nat, 0 < b → b ≤ fuel →
      1024 ^ unitIndexAux fuel b ≤ b ∧ b < 1024 ^ (unitIndexAux fuel b + 1) := by
  intro fuel
  induction fuel with
  | zero => intro b hb hle; omega
  | succ fuel ih =>
    intro b hb hle
    by_cases hsmall : b < 1024
    · simp only [unitIndexAux, if_pos hsmall]
      constructor
      · simpa using hb
      · simpa using hsmall
    · have h1024 : 1024 ≤ b := Nat.le_of_not_lt hsmall
      have hbpos : 0 < b / 1024 := Nat.div_pos h1024 (by omega)
      have hlt : b / 1024 < b := Nat.div_lt_self hb (by omega)
      have hfuel : b / 1024 ≤ fuel := by omega
      obtain ⟨hlo, hhi⟩ := ih (b / 1024) hbpos hfuel
      simp only [unitIndexAux, if_neg hsmall]
      constructor
      · calc 1024 ^ (unitIndexAux fuel (b / 1024) + 1)
            = 1024 ^ unitIndexAux fuel (b / 1024) * 1024 := by ring
          _ ≤ b / 1024 * 1024 := Nat.mul_le_mul_right _ hlo
          _ ≤ b := Nat.div_mul_le_self b 1024
      · have := (Nat.div_lt_iff_lt_mul (by omega : 0 < 1024)).mp hhi
        calc b < 1024 ^ (unitIndexAux fuel (b / 1024) + 1) * 1024 := this
          _ = 1024 ^ (unitIndexAux fuel (b / 1024) + 1 + 1) := by ring

lemma unitIndex_spec (b : Nat) (hb : 0 < b) :
    1024 ^ unitIndex b ≤ b ∧ b < 1024 ^ (unitIndex b + 1) :=
  unitIndexAux_spec b b hb (Nat.le_refl b)

lemma unitIndex_le_three (b : Nat) (hb : 0 < b) (hub : b < 1024 ^ 4) :
    unitIndex b ≤ 3 := by
  by_contra hgt
  have h4 : 4 ≤ unitIndex b := by omega
  have : (1024 : Nat) ^ 4 ≤ 1024 ^ unitIndex b :=
    Nat.pow_le_pow_right (by omega) h4
  have := (unitIndex_spec b hb).1
  omega

lemma round2_nat_bounds (b p : Nat) (hp : 0 < p) :
    2 * p * round2 b p ≤ 200 * b + p ∧ 200 * b + p < 2 * p * (round2 b p + 1) := by
  constructor
  · have := Nat.div_mul_le_self (200 * b + p) (2 * p)
    calc 2 * p * round2 b p = round2 b p * (2 * p) := by ring
      _ ≤ 200 * b + p := this
  · have := Nat.lt_div_mul_add (a := 200 * b + p) (b := 2 * p) (by omega)
    calc 200 * b + p < (200 * b + p) / (2 * p) * (2 * p) + 2 * p := this
      _ = 2 * p * ((200 * b + p) / (2 * p) + 1) := by ring

/-- The rendered number approximates the exact scaled value to within
half a hundredth: `round2 b p / 100` is `b / p` to two decimals. -/
lemma round2_approx (b p : Nat) (hp : 0 < p) :
    |(round2 b p : Rat) * p - 100 * b| ≤ (p : Rat) / 2 := by
  obtain ⟨h1, h2⟩ := round2_nat_bounds b p hp
  have h1q : (2 : Rat) * p * round2 b p ≤ 200 * b + p := by exact_mod_cast h1
  have h2q : (200 : Rat) * b + p < 2 * p * (round2 b p + 1) := by exact_mod_cast h2
  rw [abs_le]
  constructor <;> nlinarith [h1q, h2q]

lemma good_init : GoodState initState := by
  refine ⟨?_, ?_, ?_, ?_, ?_, ?_⟩ <;> simp [initState]

lemma good_modelUp (now : Nat) (f : FileInput) {s : AppState} (h : GoodState s) :
    GoodState (handleModelUpload now f s) := by
  by_cases hv : validModelName f.name <;>
    simp only [handleModelUpload, if_pos, if_neg, hv, Bool.false_eq_true] <;>
    exact ⟨h.resultProv, h.busyWindow, h.pendingProv, h.revokedNodup,
           h.revokedLt, h.imageFresh⟩

lemma good_imageUp (f : FileInput) {s : AppState} (h : GoodState s) :
    GoodState (handleImageUpload f s) := by
  by_cases hv : validImageType f.mime
  · simp only [handleImageUpload, if_pos hv]
    refine ⟨by simp, h.busyWindow, h.pendingProv, h.revokedNodup, ?_, ?_⟩
    · exact fun u hu => Nat.lt_succ_of_lt (h.revokedLt u hu)
    · intro img himg
      obtain rfl : img = { file := f, url := s.nextUrl, name := f.name,
                           size := formatFileSize f.size } := by
        simpa using himg.symm
      exact ⟨Nat.lt_succ_self _,
             fun hmem => Nat.lt_irrefl _ (h.revokedLt _ hmem)⟩
  · simp only [handleImageUpload, if_neg hv]
    exact ⟨h.resultProv, h.busyWindow, h.pendingProv, h.revokedNodup,
           h.revokedLt, h.imageFresh⟩

lemma good_start (rd : Rat) {s : AppState} (h : GoodState s) :
    GoodState (startAnalysis rd s) := by
  by_cases hg : (s.model.isNone || s.image.isNone) = true
  · simpa only [startAnalysis, if_pos hg] using h
  · obtain ⟨hm', hi'⟩ : s.model ≠ none ∧ s.image ≠ none := by simpa using hg
    have hm : s.model.isSome = true := Option.isSome_iff_ne_none.mpr hm'
    have hi : s.image.isSome = true := Option.isSome_iff_ne_none.mpr hi'
    simp only [startAnalysis, if_neg hg]
    refine ⟨by simp, by simp, ?_, h.revokedNodup, h.revokedLt, h.imageFresh⟩
    intro run hrun
    rcases List.mem_cons.mp hrun with hhd | htl
    · subst hhd; simp [hm, hi]
    · exact h.pendingProv run htl

lemma good_finish (ok : Bool) (r1 r2 r3 : Rat) {s : AppState} (h : GoodState s) :
    GoodState (finishAnalysis ok r1 r2 r3 s) := by
  rcases hp : s.pending with _ | ⟨run, rest⟩
  · simpa only [finishAnalysis, hp] using h
  · have hrest : ∀ r ∈ rest, r.startedWithBoth = true := by
      intro r hr
      exact h.pendingProv r (hp ▸ List.mem_cons_of_mem run hr)
    cases ok
    · simp only [finishAnalysis, hp, Bool.false_eq_true, if_neg]
      exact ⟨fun hr => h.resultProv hr, by simp, hrest, h.revokedNodup,
             h.revokedLt, h.imageFresh⟩
    · simp only [finishAnalysis, hp, if_pos]
      refine ⟨?_, by simp, hrest, h.revokedNodup, h.revokedLt, h.imageFresh⟩
      intro _
      exact h.pendingProv run (hp ▸ List.mem_cons_self run rest)

lemma good_clearM {s : AppState} (h : GoodState s) : GoodState (clearModel s) :=
  ⟨by simp [clearModel], h.busyWindow, h.pendingProv, h.revokedNodup,
   h.revokedLt, h.imageFresh⟩

lemma good_clearI {s : AppState} (h : GoodState s) : GoodState (clearImage s) := by
  rcases himg : s.image with _ | img
  · simp only [clearImage, himg]
    exact ⟨by simp, h.busyWindow, h.pendingProv, h.revokedNodup,
           h.revokedLt, by simp⟩
  · obtain ⟨hlt, hnotin⟩ := h.imageFresh img himg
    simp only [clearImage, himg]
    refine ⟨by simp, h.busyWindow, h.pendingProv, ?_, ?_, by simp⟩
    · rw [List.nodup_append]
      refine ⟨h.revokedNodup, List.nodup_singleton _, ?_⟩
      intro a ha hmem
      rcases List.mem_singleton.mp hmem with rfl
      exact hnotin ha
    · intro u hu
      rcases List.mem_append.mp hu with hold | hnew
      · exact h.revokedLt u hold
      · rcases List.mem_singleton.mp hnew with rfl
        exact hlt

lemma good_dismiss {s : AppState} (h : GoodState s) : GoodState (dismissError s) :=
  ⟨h.resultProv, h.busyWindow, h.pendingProv, h.revokedNodup,
   h.revokedLt, h.imageFresh⟩

lemma reachable_good {s : AppState} (h : Reachable s) : GoodState s := by
  induction h with
  | init => exact good_init
  | modelUp now f _ ih => exact good_modelUp now f ih
  | imageUp f _ ih => exact good_imageUp f ih
  | start rd _ ih => exact good_start rd ih
  | finish ok r1 r2 r3 _ ih => exact good_finish ok r1 r2 r3 ih
  | clearM _ ih => exact good_clearM ih
  | clearI _ ih => exact good_clearI ih
  | dismiss _ ih => exact good_dismiss ih

/-- C1, counterexample: from a reachable state showing a result, a
successful `submitModel` (filename `net.pt` is accepted) leaves the
stored AnalysisResult present, so a model change does not clear the
result as claimed. -/
theorem c1_counterexample :
    validModelName "net.pt" = true ∧
    sWithResult.result.isSome = true ∧
    (handleModelUpload 5 fModel sWithResult).result.isSome = true := by
  decide

/-- C1, amended: after a successful `submitImage` the stored
AnalysisResult becomes absent, but `submitModel` always leaves the
stored AnalysisResult unchanged (the result is cleared by image
changes, by `clearModel` / `clearImage` and at the start of an
analysis, not by a model upload). -/
theorem c1_result_clearing_amended (now : Nat) (f g : FileInput) (s : AppState) :
    (validImageType g.mime = true → (handleImageUpload g s).result = none) ∧
    (handleModelUpload now f s).result = s.result := by
  constructor
  · intro h
    simp [handleImageUpload, h]
  · by_cases h : validModelName f.name <;> simp [handleModelUpload, h]

/-- C1 witness: at the concrete result-showing state, a new image
upload clears the result and a model upload keeps it. -/
theorem c1_result_clearing_witness :
    (handleImageUpload fImageB sWithResult).result = none ∧
    (handleModelUpload 5 fModel sWithResult).result = sWithResult.result :=
  ⟨(c1_result_clearing_amended 5 fModel fImageB sWithResult).1 (by decide),
   (c1_result_clearing_amended 5 fModel fImageB sWithResult).2⟩

/-- C2, counterexample: at `b = 1024 ^ 4` the unit index 4 runs past
the end of the unit list, so the formatted string is `"1 undefined"`
and its unit part is not one of Bytes, KB, MB, GB. -/
theorem c2_counterexample :
    formatFileSize (1024 ^ 4) = "1 undefined" ∧
    (formatParts (1024 ^ 4)).2 ∉ sizes := by
  decide

/-- C2, amended: `formatSize 0 = "0 Bytes"`, and for every byte count
`0 < b < 1024 ^ 4` the result is `<number> <unit>` where the unit is
the largest of Bytes, KB, MB, GB whose scale `1024 ^ i` does not
exceed `b`, and the number renders `b / 1024 ^ i` rounded to at most
two decimals (within half a hundredth of the exact scaled value).
For `b ≥ 1024 ^ 4` the unit index runs past the unit list. -/
theorem c2_format_size_amended :
    formatFileSize 0 = "0 Bytes" ∧
    ∀ b : Nat, 0 < b → b < 1024 ^ 4 →
      unitIndex b ≤ 3 ∧
      1024 ^ unitIndex b ≤ b ∧
      b < 1024 ^ (unitIndex b + 1) ∧
      (formatParts b).2 ∈ sizes ∧
      formatFileSize b =
        renderCenti (round2 b (1024 ^ unitIndex b)) ++ " " ++
          sizes.getD (unitIndex b) "undefined" ∧
      |(round2 b (1024 ^ unitIndex b) : Rat) * ((1024 ^ unitIndex b : Nat) : Rat)
          - 100 * b| ≤ ((1024 ^ unitIndex b : Nat) : Rat) / 2 := by
  constructor
  · decide
  · intro b hb hub
    have h3 := unitIndex_le_three b hb hub
    obtain ⟨hlo, hhi⟩ := unitIndex_spec b hb
    have hbne : b ≠ 0 := by omega
    refine ⟨h3, hlo, hhi, ?_, ?_, ?_⟩
    · simp only [formatParts, if_neg hbne]
      obtain ⟨i, hi3, hieq⟩ : ∃ i, i ≤ 3 ∧ unitIndex b = i := ⟨_, h3, rfl⟩
      rw [hieq]
      interval_cases i <;> decide
    · simp only [formatFileSize, formatParts, if_neg hbne]
    · exact round2_approx b (1024 ^ unitIndex b) (Nat.pos_pow_of_pos _ (by omega))

/-- C2 witness: 2048 bytes formats as `2 KB`. -/
theorem c2_format_size_witness :
    unitIndex 2048 ≤ 3 ∧ formatFileSize 2048 = "2 KB" := by
  have h := c2_format_size_amended.2 2048 (by decide) (by decide)
  exact ⟨h.1, by decide⟩

/-- C3, counterexample: with both files present and the busy flag
already true, `runAnalysis` is not a no-op — it starts a second run
(the function never consults `isAnalyzing`). -/
theorem c3_counterexample :
    sBusy.isAnalyzing = true ∧
    sBusy.model.isSome = true ∧
    sBusy.image.isSome = true ∧
    startAnalysis 0 sBusy ≠ sBusy := by
  refine ⟨by decide, by decide, by decide, fun h => ?_⟩
  have hlen : (startAnalysis 0 sBusy).pending.length = sBusy.pending.length := by
    rw [h]
  exact absurd hlen (by decide)

/-- C3, amended: `runAnalysis` is a no-op exactly when the model or
the image is absent; when both are present it proceeds — setting the
busy flag, clearing error and result, and adding an in-flight run —
regardless of the busy flag, which only the UI button checks. -/
theorem c3_run_analysis_guard_amended (rd : Rat) (s : AppState) :
    (s.model = none ∨ s.image = none → startAnalysis rd s = s) ∧
    (s.model.isSome = true → s.image.isSome = true →
      (startAnalysis rd s).isAnalyzing = true ∧
      (startAnalysis rd s).result = none ∧
      (startAnalysis rd s).error = none ∧
      (startAnalysis rd s).pending.length = s.pending.length + 1) := by
  constructor
  · intro h
    have hg : (s.model.isNone || s.image.isNone) = true := by
      rcases h with h | h <;> simp [h]
    simp [startAnalysis, hg]
  · intro hm hi
    have hg : (s.model.isNone || s.image.isNone) = false := by
      simp [Option.isNone_iff_eq_none, ← Option.isSome_iff_ne_none, hm, hi]
    simp [startAnalysis, hg]

/-- C3 witness: at the concrete busy state the guard still passes and
a new run is pushed; from the empty state the call is a no-op. -/
theorem c3_run_analysis_guard_witness :
    sBusy.isAnalyzing = true ∧
    (startAnalysis 0 sBusy).pending.length = sBusy.pending.length + 1 ∧
    startAnalysis 0 initState = initState :=
  ⟨by decide,
   ((c3_run_analysis_guard_amended 0 sBusy).2 (by decide) (by decide)).2.2.2,
   (c3_run_analysis_guard_amended 0 initState).1 (Or.inl (by decide))⟩

/-- C4: replacing an already-present image revokes nothing — after
uploading image A (handle 0) and then image B (handle 1, validation
passed), the revocation log is still empty, so handle 0 is superseded
but never released.  The source's `handleImageUpload` has no
`URL.revokeObjectURL` call. -/
theorem c4_replacement_leak :
    validImageType fImageB.mime = true ∧
    ((handleImageUpload fImage initState).image.map UploadedImage.url) = some 0 ∧
    ((handleImageUpload fImageB (handleImageUpload fImage initState)).image.map
        UploadedImage.url) = some 1 ∧
    (handleImageUpload fImageB (handleImageUpload fImage initState)).revoked = [] := by
  decide

/-- C5: a completed run stores exactly the mock record, whose
confidence lies in [0.75, 0.99] and processing time in [1.2, 3.5]
whenever the three `Math.random()` draws lie in [0, 1); the record
does not depend on the randomized suspend duration. -/
theorem c5_result_ranges (r1 r2 r3 : Rat)
    (h2 : 0 ≤ r2) (h2' : r2 < 1) (h3 : 0 ≤ r3) (h3' : r3 < 1) :
    3 / 4 ≤ (mkResult r1 r2 r3).confidence ∧
    (mkResult r1 r2 r3).confidence ≤ 99 / 100 ∧
    12 / 10 ≤ (mkResult r1 r2 r3).processingTime ∧
    (mkResult r1 r2 r3).processingTime ≤ 7 / 2 ∧
    (∀ s : AppState, ∀ rest : List RunInfo, ∀ b : Bool, ∀ d d' : Rat,
      (finishAnalysis true r1 r2 r3
        { s with pending := { startedWithBoth := b, delaySeconds := d } :: rest }).result =
      (finishAnalysis true r1 r2 r3
        { s with pending := { startedWithBoth := b, delaySeconds := d' } :: rest }).result) ∧
    (∀ s : AppState, ∀ run : RunInfo, ∀ rest : List RunInfo,
      s.pending = run :: rest →
      (finishAnalysis true r1 r2 r3 s).result = some (mkResult r1 r2 r3)) := by
  refine ⟨?_, ?_, ?_, ?_, ?_, ?_⟩
  · simp only [mkResult]
    nlinarith
  · simp only [mkResult]
    nlinarith
  · simp only [mkResult]
    nlinarith
  · simp only [mkResult]
    nlinarith
  · intro s rest b d d'
    simp [finishAnalysis]
  · intro s run rest hp
    simp [finishAnalysis, hp]

/-- C5 witness: with all three draws at 0 the stored record is
`isOriginal = false`, confidence 0.75, processing time 1.2, inside
the claimed ranges. -/
theorem c5_result_ranges_witness :
    3 / 4 ≤ (mkResult 0 0 0).confidence ∧
    (mkResult 0 0 0).processingTime ≤ 7 / 2 ∧
    sWithResult.result = some (mkResult 0 0 0) := by
  have h := c5_result_ranges 0 0 0 (by norm_num) (by norm_num) (by norm_num) (by norm_num)
  exact ⟨h.1, h.2.2.2.1, h.2.2.2.2.2 sBusy _ [] rfl⟩

/-- C6: `submitModel` rejects exactly the filenames whose lowercased
form does not end in `.pt`, leaving the model (and setting the
invalid-format message); on acceptance it stores the new model record
and clears the error. -/
theorem c6_submit_model_validation (now : Nat) (f : FileInput) (s : AppState) :
    (validModelName f.name = false →
      (handleModelUpload now f s).model = s.model ∧
      (handleModelUpload now f s).error =
        some "Please upload a valid PyTorch model file (.pt)") ∧
    (validModelName f.name = true →
      (handleModelUpload now f s).model =
        some { file := f, name := f.name, size := formatFileSize f.size,
               uploadedAt := now } ∧
      (handleModelUpload now f s).error = none) := by
  constructor <;> intro h <;> simp [handleModelUpload, h]

/-- C6 witness: `net.txt` is rejected with the model left absent;
`Net.PT` is accepted case-insensitively with the error cleared. -/
theorem c6_submit_model_witness :
    (handleModelUpload 0 { name := "net.txt", size := 0, mime := "" } initState).model
        = initState.model ∧
    (handleModelUpload 3 { name := "Net.PT", size := 0, mime := "" } initState).error
        = none :=
  ⟨((c6_submit_model_validation 0 { name := "net.txt", size := 0, mime := "" }
      initState).1 (by decide)).1,
   ((c6_submit_model_validation 3 { name := "Net.PT", size := 0, mime := "" }
      initState).2 (by decide)).2⟩

/-- C7: a failed upload validation only sets the error message — the
model, image, result, busy flag and in-flight runs all stay exactly
as they were, for both the model handler and the image handler. -/
theorem c7_invalid_upload_frame (now : Nat) (f g : FileInput) (s : AppState) :
    (validModelName f.name = false →
      (handleModelUpload now f s).model = s.model ∧
      (handleModelUpload now f s).image = s.image ∧
      (handleModelUpload now f s).result = s.result ∧
      (handleModelUpload now f s).isAnalyzing = s.isAnalyzing ∧
      (handleModelUpload now f s).pending = s.pending ∧
      (handleModelUpload now f s).error =
        some "Please upload a valid PyTorch model file (.pt)") ∧
    (validImageType g.mime = false →
      (handleImageUpload g s).model = s.model ∧
      (handleImageUpload g s).image = s.image ∧
      (handleImageUpload g s).result = s.result ∧
      (handleImageUpload g s).isAnalyzing = s.isAnalyzing ∧
      (handleImageUpload g s).pending = s.pending ∧
      (handleImageUpload g s).error = some "Please upload a valid image file") := by
  constructor <;> intro h
  · simp [handleModelUpload, h]
  · simp [handleImageUpload, h]

/-- C7 witness: rejecting `net.txt` and a `text/plain` file at the
result-showing state keeps model, image, result and busy flag. -/
theorem c7_invalid_upload_witness :
    (handleModelUpload 9 { name := "net.txt", size := 0, mime := "" }
        sWithResult).result = sWithResult.result ∧
    (handleImageUpload { name := "a.txt", size := 0, mime := "text/plain" }
        sWithResult).image = sWithResult.image :=
  ⟨((c7_invalid_upload_frame 9 { name := "net.txt", size := 0, mime := "" }
      { name := "a.txt", size := 0, mime := "text/plain" } sWithResult).1
      (by decide)).2.2.1,
   ((c7_invalid_upload_frame 9 { name := "net.txt", size := 0, mime := "" }
      { name := "a.txt", size := 0, mime := "text/plain" } sWithResult).2
      (by decide)).2.1⟩

/-- C8, counterexample: a `clearImage` call with no image present
releases no handle, so "exactly one release per call" fails. -/
theorem c8_counterexample :
    initState.image = none ∧
    ¬ (clearImage initState).revoked.length = initState.revoked.length + 1 := by
  decide

/-- C8, amended: `clearImage` drops the image and the result, releases
exactly the present image's handle — and nothing when no image is
present — and never double-releases: an immediate second call
releases nothing, and in every reachable state the revocation log has
no duplicates. -/
theorem c8_clear_image_release_amended (s : AppState) :
    (clearImage s).image = none ∧
    (clearImage s).result = none ∧
    (∀ img, s.image = some img → (clearImage s).revoked = s.revoked ++ [img.url]) ∧
    (s.image = none → (clearImage s).revoked = s.revoked) ∧
    (clearImage (clearImage s)).revoked = (clearImage s).revoked ∧
    (Reachable s → (clearImage s).revoked.Nodup) := by
  refine ⟨?_, ?_, ?_, ?_, ?_, ?_⟩
  · rcases h : s.image <;> simp [clearImage, h]
  · rcases h : s.image <;> simp [clearImage, h]
  · intro img h
    simp [clearImage, h]
  · intro h
    simp [clearImage, h]
  · rcases h : s.image <;> simp [clearImage, h]
  · intro hr
    exact (good_clearI (reachable_good hr)).revokedNodup

/-- C8 witness: at the ready state the single present handle 0 is
released once; clearing again releases nothing, and the log stays
duplicate-free. -/
theorem c8_clear_image_release_witness :
    (clearImage sReady).revoked = sReady.revoked ++ [0] ∧
    (clearImage (clearImage sReady)).revoked = (clearImage sReady).revoked ∧
    (clearImage sReady).revoked.Nodup :=
  ⟨(c8_clear_image_release_amended sReady).2.2.1
     { file := fImage, url := 0, name := "pic.png", size := "0 Bytes" } (by decide),
   (c8_clear_image_release_amended sReady).2.2.2.2.1,
   (c8_clear_image_release_amended sReady).2.2.2.2.2
     (Reachable.imageUp fImage (Reachable.modelUp 0 fModel Reachable.init))⟩

/-- C9: in every reachable session state, a present result was
produced by a run that started with both model and image present, and
the busy flag can be true only while a run is in flight; this holds
inductively across every operation. -/
theorem c9_session_invariant (s : AppState) (h : Reachable s) :
    (s.result.isSome = true → s.resultFromBoth = true) ∧
    (s.isAnalyzing = true → s.pending ≠ []) :=
  ⟨(reachable_good h).resultProv, (reachable_good h).busyWindow⟩

/-- C9 witness: the concrete completed-analysis state is reachable,
shows a result, and its provenance flag is true. -/
theorem c9_session_invariant_witness :
    sWithResult.result.isSome = true ∧ sWithResult.resultFromBoth = true :=
  ⟨by decide,
   (c9_session_invariant sWithResult
      (Reachable.finish true 0 0 0 (Reachable.start 0
        (Reachable.imageUp fImage (Reachable.modelUp 0 fModel Reachable.init))))).1
     (by decide)⟩

/-- C10: when a guarded run's awaited step is modelled as failing, the
continuation leaves the result absent, stores the failure message,
and the `finally` still clears the busy flag. -/
theorem c10_failure_path (rd r1 r2 r3 : Rat) (s : AppState)
    (hm : s.model.isSome = true) (hi : s.image.isSome = true) :
    (finishAnalysis false r1 r2 r3 (startAnalysis rd s)).isAnalyzing = false ∧
    (finishAnalysis false r1 r2 r3 (startAnalysis rd s)).result = none ∧
    (finishAnalysis false r1 r2 r3 (startAnalysis rd s)).error =
      some "Analysis failed. Please try again." := by
  have hg : (s.model.isNone || s.image.isNone) = false := by
    simp [Option.isNone_iff_eq_none, ← Option.isSome_iff_ne_none, hm, hi]
  simp [startAnalysis, finishAnalysis, hg]

/-- C10 witness: the failure continuation from the concrete ready
state ends not busy, with no result and the failure message. -/
theorem c10_failure_path_witness :
    (finishAnalysis false 0 0 0 (startAnalysis 0 sReady)).isAnalyzing = false ∧
    (finishAnalysis false 0 0 0 (startAnalysis 0 sReady)).error =
      some "Analysis failed. Please try again." :=
  ⟨(c10_failure_path 0 0 0 0 sReady (by decide) (by decide)).1,
   (c10_failure_path 0 0 0 0 sReady (by decide) (by decide)).2.2⟩
